import Mathlib

/-
Verification of the webtx_mcp Key Manager (src/webtx_mcp/key_manager.py)
against its natural-language specification.

The embedding models:
 - the credential record (`APIKey`, mirroring the dataclass in key_manager.py),
 - `usage_ratio` and `is_available` (APIKey properties),
 - the lazy reset performed by `KeyManager._lazy_reset` (three SQL UPDATEs,
   modelled row-wise),
 - selection `KeyManager.get_key` (lazy reset, availability filter, Python
   `min` over usage ratios in id order, .env fallback),
 - the feedback protocol `KeyManager.report_success` / `report_failure`
   (including the usage-event log appends and the circuit breaker),
 - the at-rest encryption wrappers (the Fernet layer itself lives in the
   external `cryptography` package, so it is modelled from the spec).

Timestamps: the source compares datetimes three ways - full ordering
(`datetime(..) <= datetime(..)`, `now < suspended_until`), calendar month
equality (`strftime('%Y-%m', ..)`), and calendar date equality (`date(..)`).
`Time` carries the three projections explicitly: `abs` (minutes, total
order), `month` (year-month index) and `day` (date index). Suspension
expiries are only ever compared via the total order, so they are stored as
plain `abs` values, exactly as the source only ever compares them with
`datetime(..)`.
-/

inductive Status where
  | active
  | suspended
  | disabled
deriving DecidableEq, Repr

structure Time where
  abs : Nat
  month : Nat
  day : Nat
deriving DecidableEq, Repr

/-- Mirrors the `APIKey` dataclass (key_manager.py lines 72-110), with the
decrypted secret in `key` as `get_key` builds it. -/
structure APIKey where
  id : Int
  service : String
  key : String
  name : String
  monthly_limit : Nat
  daily_limit : Nat
  usage_count : Nat
  daily_usage : Nat
  total_usage : Nat
  status : Status
  suspended_until : Option Nat
  consecutive_failures : Nat
  last_used_at : Option Time
  last_reset_at : Time
deriving DecidableEq, Repr

/-- MAX_CONSECUTIVE_FAILURES = 5 (key_manager.py line 68). -/
def MAX_CONSECUTIVE_FAILURES : Nat := 5

/-- SUSPENSION_DURATION_MINUTES = 15 (key_manager.py line 69). -/
def SUSPENSION_DURATION_MINUTES : Nat := 15

/-- `APIKey.usage_ratio` (key_manager.py lines 91-96): usage divided by the
monthly limit, or by the constant 1000000.0 when the limit is zero. Exact
rational arithmetic stands in for Python floats. -/
def usage_ratio (k : APIKey) : ℚ :=
  if k.monthly_limit = 0 then (k.usage_count : ℚ) / 1000000
  else (k.usage_count : ℚ) / (k.monthly_limit : ℚ)

/-- The Python truthiness test `self.suspended_until and datetime.now() <
self.suspended_until` (key_manager.py line 104): `None` is falsy. -/
def stillSuspended (now : Time) (k : APIKey) : Bool :=
  match k.suspended_until with
  | some e => decide (now.abs < e)
  | none => false

/-- `APIKey.is_available` (key_manager.py lines 98-110). -/
def is_available (now : Time) (k : APIKey) : Bool :=
  if k.status = Status.disabled then false
  else if k.status = Status.suspended ∧ stillSuspended now k = true then false
  else if 0 < k.monthly_limit ∧ k.monthly_limit ≤ k.usage_count then false
  else if 0 < k.daily_limit ∧ k.daily_limit ≤ k.daily_usage then false
  else true

/-- First UPDATE of `KeyManager._lazy_reset` (lines 151-160): zero the
monthly counter and stamp the reset time when the stored month differs from
the current month. -/
def monthlyReset (now : Time) (k : APIKey) : APIKey :=
  if k.last_reset_at.month ≠ now.month then
    { k with usage_count := 0, last_reset_at := now }
  else k

/-- Second UPDATE of `KeyManager._lazy_reset` (lines 162-171): zero the
daily counter when the last-used date differs from today (only for rows
with a non-NULL last_used_at). -/
def dailyReset (now : Time) (k : APIKey) : APIKey :=
  match k.last_used_at with
  | some t => if t.day ≠ now.day then { k with daily_usage := 0 } else k
  | none => k

/-- Third UPDATE of `KeyManager._lazy_reset` (lines 173-184): auto-unsuspend
rows whose non-NULL expiry has passed. Note the SET clause touches only
`status` and `consecutive_failures`; `suspended_until` is left in place. -/
def unsuspendExpired (now : Time) (k : APIKey) : APIKey :=
  match k.suspended_until with
  | some e =>
    if k.status = Status.suspended ∧ e ≤ now.abs then
      { k with status := Status.active, consecutive_failures := 0 }
    else k
  | none => k

/-- The effect of `KeyManager._lazy_reset` on one row: the three UPDATEs in
source order (they touch disjoint columns, so row-wise composition is
exact). -/
def resetKey (now : Time) (k : APIKey) : APIKey :=
  unsuspendExpired now (dailyReset now (monthlyReset now k))

/-- `KeyManager._lazy_reset` (key_manager.py lines 146-186) over the whole
catalog. -/
def lazy_reset (now : Time) (ks : List APIKey) : List APIKey :=
  ks.map (resetKey now)

/-- Python `min(available_keys, key=lambda k: k.usage_ratio)`: scan keeping
the current best, replacing only on strictly smaller key, so the first
minimal element wins. -/
def pymin (f : APIKey → ℚ) (b : APIKey) : List APIKey → APIKey
  | [] => b
  | x :: l => if f x < f b then pymin f x l else pymin f b l

def minByRatio : List APIKey → Option APIKey
  | [] => none
  | k :: ks => some (pymin usage_ratio k ks)

/-- The available keys as `get_key` collects them (lines 212-255): rows in
id order, lazily reset, filtered by `is_available`. -/
def availList (now : Time) (ks : List APIKey) : List APIKey :=
  (lazy_reset now ks).filter (fun k => is_available now k)

/-- `KeyManager._get_env_key` (lines 268-291): the synthetic fallback
credential built from GOOGLE_API_KEY. -/
def get_env_key (secret : String) (now : Time) : APIKey :=
  { id := -1
    service := "google"
    key := secret
    name := ".env (GOOGLE_API_KEY)"
    monthly_limit := 0
    daily_limit := 0
    usage_count := 0
    daily_usage := 0
    total_usage := 0
    status := Status.active
    suspended_until := none
    consecutive_failures := 0
    last_used_at := none
    last_reset_at := now }

/-- `KeyManager.get_key` (key_manager.py lines 188-266): lazy reset, filter
by availability, pick the minimal usage ratio, else fall back to the .env
key when one is configured. `ks` is the catalog in id order (`ORDER BY id`);
`env` is the GOOGLE_API_KEY environment variable. -/
def get_key (now : Time) (env : Option String) (ks : List APIKey) : Option APIKey :=
  match minByRatio (availList now ks) with
  | some k => some k
  | none => env.map (fun s => get_env_key s now)

/-- One row of the `api_usage_log` table as the report operations insert it. -/
structure UsageEvent where
  key_id : Int
  status_code : Int
  error_type : String
deriving DecidableEq, Repr

/-- The store state the Key Manager mutates: the credential catalog (in id
order) and the append-only usage log. -/
structure State where
  keys : List APIKey
  log : List UsageEvent
deriving DecidableEq, Repr

/-- `UPDATE api_keys SET .. WHERE id = ?`: apply `f` to every row whose id
matches. -/
def updateById (kid : Int) (f : APIKey → APIKey) (ks : List APIKey) : List APIKey :=
  ks.map (fun k => if k.id = kid then f k else k)

/-- `SELECT .. FROM api_keys WHERE id = ?` (id is the primary key). -/
def findById (kid : Int) (ks : List APIKey) : Option APIKey :=
  ks.find? (fun k => decide (k.id = kid))

/-- The per-row effect of the UPDATE in `report_success` (lines 302-313). -/
def successUpdate (now : Time) (k : APIKey) : APIKey :=
  { k with usage_count := k.usage_count + 1
           daily_usage := k.daily_usage + 1
           total_usage := k.total_usage + 1
           consecutive_failures := 0
           last_used_at := some now }

/-- The store's foreign-key check on the usage-log INSERT: `api_usage_log`
declares `FOREIGN KEY(key_id) REFERENCES api_keys(id)` (db.py line 44) and
the connection runs `PRAGMA foreign_keys=ON` (db.py line 90), so the INSERT
succeeds exactly when the catalog has a row with that id. -/
def fkOk (kid : Int) (ks : List APIKey) : Bool :=
  (findById kid ks).isSome

/-- The committed effect of `report_success` when its writes go through:
the counter UPDATE (lines 302-313) and the usage-event INSERT
(lines 315-321). -/
def applySuccess (kid : Int) (now : Time) (st : State) : State :=
  { keys := updateById kid (successUpdate now) st.keys
    log := st.log ++ [{ key_id := kid, status_code := 200, error_type := "success" }] }

/-- `KeyManager.report_success` (key_manager.py lines 293-324): guard on
negative id, UPDATE the counters, INSERT the usage event, commit. When the
id has no catalog row the INSERT violates the enforced foreign key and
raises IntegrityError; the transaction is never committed, so nothing is
persisted - modelled as `none` (the UPDATE that textually precedes the
INSERT matched no row for such an id anyway). -/
def report_success (kid : Int) (now : Time) (st : State) : Option State :=
  if kid < 0 then some st
  else if fkOk kid st.keys = true then some (applySuccess kid now st)
  else none

/-- Failure classification in `report_failure` (lines 343-353). -/
def error_type (http_code : Int) : String :=
  if http_code = 429 then "rate_limit"
  else if http_code = 401 ∨ http_code = 403 then "auth"
  else if 500 ≤ http_code then "server"
  else if 400 ≤ http_code then "client"
  else "timeout"

/-- Per-row effect of the 429 branch of `report_failure` (lines 364-376). -/
def suspendUpdate (now : Time) (k : APIKey) : APIKey :=
  { k with status := Status.suspended
           suspended_until := some (now.abs + SUSPENSION_DURATION_MINUTES)
           consecutive_failures := k.consecutive_failures + 1
           last_used_at := some now }

/-- Per-row effect of the 401/403 branch of `report_failure` (lines 381-391). -/
def disableUpdate (now : Time) (k : APIKey) : APIKey :=
  { k with status := Status.disabled
           consecutive_failures := k.consecutive_failures + 1
           last_used_at := some now }

/-- Per-row effect of the first UPDATE of the other-failure branch
(lines 397-405). -/
def bumpFailures (now : Time) (k : APIKey) : APIKey :=
  { k with consecutive_failures := k.consecutive_failures + 1
           last_used_at := some now }

/-- Per-row effect of the circuit-breaker UPDATE (lines 411-421). -/
def breakerUpdate (now : Time) (k : APIKey) : APIKey :=
  { k with status := Status.suspended
           suspended_until := some (now.abs + SUSPENSION_DURATION_MINUTES) }

/-- The usage-log append of `report_failure` (lines 356-362). -/
def failLog (kid : Int) (http_code : Int) (st : State) : List UsageEvent :=
  st.log ++
    [{ key_id := kid, status_code := http_code, error_type := error_type http_code }]

/-- The circuit breaker of `report_failure` (lines 407-425): re-read the
just-incremented failure counter and suspend when it has reached the
threshold. -/
def breakerStep (kid : Int) (now : Time) (ks : List APIKey) : List APIKey :=
  match findById kid ks with
  | some row =>
    if MAX_CONSECUTIVE_FAILURES ≤ row.consecutive_failures then
      updateById kid (breakerUpdate now) ks
    else ks
  | none => ks

/-- The committed effect of `report_failure` when its writes go through:
the usage-event INSERT, then the branch on the HTTP code with the circuit
breaker re-reading the failure counter. The log INSERT and the key UPDATEs
act on different tables, so the sequential cursor operations are stated as
one record. -/
def applyFailure (kid : Int) (http_code : Int) (now : Time) (st : State) : State :=
  if http_code = 429 then
    { keys := updateById kid (suspendUpdate now) st.keys
      log := failLog kid http_code st }
  else if http_code = 401 ∨ http_code = 403 then
    { keys := updateById kid (disableUpdate now) st.keys
      log := failLog kid http_code st }
  else
    { keys := breakerStep kid now (updateById kid (bumpFailures now) st.keys)
      log := failLog kid http_code st }

/-- `KeyManager.report_failure` (key_manager.py lines 326-427): guard on
negative id, INSERT the classified usage event, then branch on the HTTP
code. The INSERT runs first (lines 356-362); when the id has no catalog
row it violates the enforced foreign key and raises IntegrityError before
any UPDATE, and nothing is committed - modelled as `none`. -/
def report_failure (kid : Int) (http_code : Int) (now : Time) (st : State) : Option State :=
  if kid < 0 then some st
  else if fkOk kid st.keys = true then some (applyFailure kid http_code now st)
  else none

/-- Modelled from the spec: the Fernet symmetric encryption used by
`_encrypt_key` lives in the external `cryptography` package, not in src/.
Per the spec (section 4.4), a token is produced with a per-installation
master key, is decryptable back to the plaintext with that key, and values
that are not tokens of that key fail the integrity/format check. Byte
strings are modelled as `List Nat`; a token is the version marker 128
(Fernet's 0x80), the master key, then the payload. `encrypt_key` mirrors
`_encrypt_key` (key_manager.py lines 47-50). -/
def encrypt_key (master : Nat) (plaintext : List Nat) : List Nat :=
  128 :: master :: plaintext

/-- Modelled from the spec: Fernet decryption, returning `none` exactly when
the integrity/format check fails, i.e. when the value is not a token
produced under `master`. -/
def fernetDecrypt (master : Nat) (c : List Nat) : Option (List Nat) :=
  match c with
  | v :: m :: rest => if v = 128 ∧ m = master then some rest else none
  | _ => none

/-- `_decrypt_key` (key_manager.py lines 53-59): decrypt, falling back to
the stored value unchanged when the integrity/format check fails. -/
def decrypt_key (master : Nat) (stored : List Nat) : List Nat :=
  match fernetDecrypt master stored with
  | some p => p
  | none => stored

/-- A template credential used to build concrete witnesses: the record a
fresh `add_key` row yields (all counters zero, active, no quotas). -/
def baseKey : APIKey :=
  { id := 1
    service := "google"
    key := "k"
    name := "n"
    monthly_limit := 0
    daily_limit := 0
    usage_count := 0
    daily_usage := 0
    total_usage := 0
    status := Status.active
    suspended_until := none
    consecutive_failures := 0
    last_used_at := none
    last_reset_at := { abs := 0, month := 0, day := 0 } }

def t0 : Time := { abs := 100, month := 0, day := 0 }

def t200 : Time := { abs := 200, month := 0, day := 0 }

/-- A credential suspended until minute 50 with three recorded failures. -/
def kSusp : APIKey :=
  { baseKey with
      status := Status.suspended, suspended_until := some 50,
      consecutive_failures := 3 }

/-- A credential suspended until minute 200 (still in the future at `t0`). -/
def kSusp200 : APIKey :=
  { baseKey with
      status := Status.suspended, suspended_until := some 200 }

/-- A permanently disabled credential. -/
def kDisabled : APIKey :=
  { baseKey with status := Status.disabled }

/-- An unlimited credential with a very large usage count. -/
def kUnlimHeavy : APIKey :=
  { baseKey with usage_count := 1000000 }

/-- A quota-bound credential: limit 2, one call used. -/
def kQuota : APIKey :=
  { baseKey with id := 2, monthly_limit := 2, usage_count := 1 }

/-- A credential whose status is suspended but whose expiry is null. -/
def kSuspNoExp : APIKey :=
  { baseKey with status := Status.suspended }

/-
Helper lemmas about the Python `min` scan, the id-indexed updates, and the
availability predicate.
-/

lemma pymin_mem (f : APIKey → ℚ) (l : List APIKey) (b : APIKey) :
    pymin f b l = b ∨ pymin f b l ∈ l := by
  induction l generalizing b with
  | nil => exact Or.inl rfl
  | cons x l ih =>
    unfold pymin
    by_cases h : f x < f b
    · rw [if_pos h]
      rcases ih x with h' | h'
      · exact Or.inr (by rw [h']; exact List.mem_cons_self x l)
      · exact Or.inr (List.mem_cons_of_mem x h')
    · rw [if_neg h]
      rcases ih b with h' | h'
      · exact Or.inl h'
      · exact Or.inr (List.mem_cons_of_mem x h')

lemma pymin_le (f : APIKey → ℚ) (l : List APIKey) (b : APIKey) :
    f (pymin f b l) ≤ f b ∧ ∀ x ∈ l, f (pymin f b l) ≤ f x := by
  induction l generalizing b with
  | nil => exact ⟨le_refl _, by intro x hx; cases hx⟩
  | cons y l ih =>
    unfold pymin
    by_cases h : f y < f b
    · rw [if_pos h]
      refine ⟨le_of_lt (lt_of_le_of_lt (ih y).1 h), ?_⟩
      intro x hx
      rcases List.mem_cons.mp hx with rfl | hx
      · exact (ih x).1
      · exact (ih y).2 x hx
    · rw [if_neg h]
      refine ⟨(ih b).1, ?_⟩
      intro x hx
      rcases List.mem_cons.mp hx with rfl | hx
      · exact le_trans (ih b).1 (not_lt.mp h)
      · exact (ih b).2 x hx

lemma pymin_eq_or_lt (f : APIKey → ℚ) (l : List APIKey) (b : APIKey) :
    pymin f b l = b ∨ f (pymin f b l) < f b := by
  induction l generalizing b with
  | nil => exact Or.inl rfl
  | cons y l ih =>
    unfold pymin
    by_cases h : f y < f b
    · rw [if_pos h]
      exact Or.inr (lt_of_le_of_lt (pymin_le f l y).1 h)
    · rw [if_neg h]
      exact ih b

lemma pymin_tiebreak (f : APIKey → ℚ) (l : List APIKey) (b : APIKey)
    (hs : List.Pairwise (fun a c : APIKey => a.id < c.id) (b :: l)) :
    ∀ x ∈ b :: l, f x = f (pymin f b l) → (pymin f b l).id ≤ x.id := by
  induction l generalizing b with
  | nil =>
    intro x hx _
    rcases List.mem_cons.mp hx with rfl | hx
    · exact le_refl _
    · cases hx
  | cons y l ih =>
    have hby : b.id < y.id := (List.pairwise_cons.mp hs).1 y (List.mem_cons_self y l)
    have hbl : ∀ z ∈ l, b.id < z.id := by
      intro z hz
      exact (List.pairwise_cons.mp hs).1 z (List.mem_cons_of_mem y hz)
    have hyl : List.Pairwise (fun a c : APIKey => a.id < c.id) (y :: l) :=
      (List.pairwise_cons.mp hs).2
    have hbl' : List.Pairwise (fun a c : APIKey => a.id < c.id) (b :: l) :=
      List.pairwise_cons.mpr ⟨hbl, (List.pairwise_cons.mp hyl).2⟩
    intro x hx hfx
    unfold pymin at hfx ⊢
    by_cases h : f y < f b
    · rw [if_pos h] at hfx ⊢
      rcases List.mem_cons.mp hx with heq | hx
      · exfalso
        have h1 : f (pymin f y l) ≤ f y := (pymin_le f l y).1
        have h2 : f (pymin f y l) < f b := lt_of_le_of_lt h1 h
        rw [heq] at hfx
        rw [hfx] at h2
        exact lt_irrefl _ h2
      · exact ih y hyl x hx hfx
    · rw [if_neg h] at hfx ⊢
      rcases List.mem_cons.mp hx with heq | hx
      · subst heq
        exact ih x hbl' x (List.mem_cons_self x l) hfx
      · rcases List.mem_cons.mp hx with heq | hx
        · subst heq
          rcases pymin_eq_or_lt f l b with he | hlt
          · rw [he]
            exact le_of_lt hby
          · exfalso
            have hlt2 : f (pymin f b l) < f x := lt_of_lt_of_le hlt (not_lt.mp h)
            rw [hfx] at hlt2
            exact lt_irrefl _ hlt2
        · exact ih b hbl' x (List.mem_cons_of_mem b hx) hfx

lemma findById_updateById (kid : Int) (f : APIKey → APIKey)
    (hf : ∀ k, (f k).id = k.id) (ks : List APIKey) :
    findById kid (updateById kid f ks) = (findById kid ks).map f := by
  induction ks with
  | nil => rfl
  | cons k ks ih =>
    unfold findById updateById at ih ⊢
    by_cases h : k.id = kid
    · simp [List.find?, h, hf k]
    · simp only [List.map_cons, if_neg h, List.find?]
      simp only [h, decide_False]
      exact ih

lemma updateById_of_absent (kid : Int) (f : APIKey → APIKey) (ks : List APIKey)
    (h : ∀ k ∈ ks, k.id ≠ kid) : updateById kid f ks = ks := by
  induction ks with
  | nil => rfl
  | cons k ks ih =>
    unfold updateById at ih ⊢
    simp only [List.map_cons, if_neg (h k (List.mem_cons_self k ks))]
    rw [ih (fun x hx => h x (List.mem_cons_of_mem k hx))]

lemma findById_of_absent (kid : Int) (ks : List APIKey)
    (h : ∀ k ∈ ks, k.id ≠ kid) : findById kid ks = none := by
  unfold findById
  rw [List.find?_eq_none]
  intro k hk
  simp [h k hk]

lemma fkOk_of_find (kid : Int) (ks : List APIKey) (k : APIKey)
    (hfind : findById kid ks = some k) : fkOk kid ks = true := by
  unfold fkOk
  rw [hfind]
  rfl

lemma report_failure_ok (kid http_code : Int) (now : Time) (st : State)
    (hneg : ¬ kid < 0) (hfk : fkOk kid st.keys = true) :
    report_failure kid http_code now st =
      some (applyFailure kid http_code now st) := by
  unfold report_failure
  rw [if_neg hneg, if_pos hfk]

lemma is_available_spec (now : Time) (k : APIKey) (h : is_available now k = true) :
    k.status ≠ Status.disabled ∧
      ¬(0 < k.monthly_limit ∧ k.monthly_limit ≤ k.usage_count) := by
  unfold is_available at h
  split at h
  · exact absurd h (by simp)
  · split at h
    · exact absurd h (by simp)
    · split at h
      · exact absurd h (by simp)
      · rename_i h1 h2 h3
        exact ⟨h1, h3⟩

lemma monthlyReset_id (now : Time) (k : APIKey) : (monthlyReset now k).id = k.id := by
  unfold monthlyReset
  split <;> rfl

lemma dailyReset_id (now : Time) (k : APIKey) : (dailyReset now k).id = k.id := by
  rcases hk : k.last_used_at with _ | t
  · simp [dailyReset, hk]
  · simp only [dailyReset, hk]
    split <;> rfl

lemma unsuspendExpired_id (now : Time) (k : APIKey) :
    (unsuspendExpired now k).id = k.id := by
  rcases hk : k.suspended_until with _ | e
  · simp [unsuspendExpired, hk]
  · simp only [unsuspendExpired, hk]
    split <;> rfl

lemma resetKey_id (now : Time) (k : APIKey) : (resetKey now k).id = k.id := by
  unfold resetKey
  rw [unsuspendExpired_id, dailyReset_id, monthlyReset_id]

lemma monthlyReset_health (now : Time) (k : APIKey) :
    (monthlyReset now k).status = k.status ∧
    (monthlyReset now k).suspended_until = k.suspended_until ∧
    (monthlyReset now k).consecutive_failures = k.consecutive_failures := by
  unfold monthlyReset
  split <;> exact ⟨rfl, rfl, rfl⟩

lemma dailyReset_health (now : Time) (k : APIKey) :
    (dailyReset now k).status = k.status ∧
    (dailyReset now k).suspended_until = k.suspended_until ∧
    (dailyReset now k).consecutive_failures = k.consecutive_failures := by
  rcases hk : k.last_used_at with _ | t
  · simp [dailyReset, hk]
  · simp only [dailyReset, hk]
    split <;> exact ⟨rfl, rfl, rfl⟩

lemma monthlyReset_quota (now : Time) (k : APIKey) :
    (monthlyReset now k).monthly_limit = k.monthly_limit ∧
    (monthlyReset now k).daily_limit = k.daily_limit ∧
    (monthlyReset now k).daily_usage = k.daily_usage ∧
    ((monthlyReset now k).usage_count = k.usage_count ∨
      (monthlyReset now k).usage_count = 0) := by
  unfold monthlyReset
  split
  · exact ⟨rfl, rfl, rfl, Or.inr rfl⟩
  · exact ⟨rfl, rfl, rfl, Or.inl rfl⟩

lemma dailyReset_quota (now : Time) (k : APIKey) :
    (dailyReset now k).monthly_limit = k.monthly_limit ∧
    (dailyReset now k).daily_limit = k.daily_limit ∧
    (dailyReset now k).usage_count = k.usage_count ∧
    ((dailyReset now k).daily_usage = k.daily_usage ∨
      (dailyReset now k).daily_usage = 0) := by
  rcases hk : k.last_used_at with _ | t
  · simp [dailyReset, hk]
  · simp only [dailyReset, hk]
    split
    · exact ⟨rfl, rfl, rfl, Or.inr rfl⟩
    · exact ⟨rfl, rfl, rfl, Or.inl rfl⟩

lemma unsuspendExpired_of_expired (now : Time) (k : APIKey) (e : Nat)
    (he : k.suspended_until = some e) (hs : k.status = Status.suspended)
    (hle : e ≤ now.abs) :
    unsuspendExpired now k =
      { k with status := Status.active, consecutive_failures := 0 } := by
  unfold unsuspendExpired
  rw [he]
  simp [hs, hle]

lemma unsuspendExpired_of_none (now : Time) (k : APIKey)
    (he : k.suspended_until = none) : unsuspendExpired now k = k := by
  unfold unsuspendExpired
  rw [he]

/-- C1 (amended): the lazy-reset transition out of suspension sets the
status to active and zeroes the consecutive-failure counter, but it does
NOT clear the suspension expiry: the stored expiry stays in place (stale,
and ignored because the status is no longer suspended). -/
theorem C1_lazy_reset_keeps_expiry (now : Time) (k : APIKey) (e : Nat)
    (hs : k.status = Status.suspended) (he : k.suspended_until = some e)
    (hle : e ≤ now.abs) :
    (resetKey now k).status = Status.active ∧
    (resetKey now k).consecutive_failures = 0 ∧
    (resetKey now k).suspended_until = some e := by
  have hm := monthlyReset_health now k
  have hd := dailyReset_health now (monthlyReset now k)
  have h2s : (dailyReset now (monthlyReset now k)).status = Status.suspended :=
    hd.1.trans (hm.1.trans hs)
  have h2e : (dailyReset now (monthlyReset now k)).suspended_until = some e :=
    hd.2.1.trans (hm.2.1.trans he)
  have hres : resetKey now k =
      { dailyReset now (monthlyReset now k) with
          status := Status.active, consecutive_failures := 0 } := by
    unfold resetKey
    exact unsuspendExpired_of_expired now _ e h2e h2s hle
  rw [hres]
  exact ⟨rfl, rfl, h2e⟩

/-- C1 (witness): a credential suspended until minute 50, lazily reset at
minute 100, comes back active with the counter zeroed and the expiry still
recorded. -/
theorem C1_lazy_reset_keeps_expiry_witness :
    kSusp.status = Status.suspended ∧
    kSusp.suspended_until = some 50 ∧
    50 ≤ t0.abs ∧
    ((resetKey t0 kSusp).status = Status.active ∧
     (resetKey t0 kSusp).consecutive_failures = 0 ∧
     (resetKey t0 kSusp).suspended_until = some 50) :=
  ⟨rfl, rfl, by decide,
    C1_lazy_reset_keeps_expiry t0 kSusp 50 rfl rfl (by decide)⟩

/-- C1 (counterexample): the claim "the lazy reset clears the expiry (sets
it to null)" is false on the code: after the lazy reset of an expired
suspension the status is active but the expiry is still `some 50`, not
null, so the invariant "expiry non-null only while suspended" fails. -/
theorem C1_counterexample :
    (lazy_reset t0 [kSusp]).map (fun k => (k.status, k.suspended_until)) =
      [(Status.active, some 50)] := by
  decide

/-- C9: round-trip of the at-rest encryption, injectivity on distinct
secrets, and the plaintext fallback of `_decrypt_key` for stored values
that the encryption never produced (the Fernet layer is modelled from the
spec, see `encrypt_key`). -/
theorem C9_encrypt_roundtrip (master : Nat) (x y v : List Nat)
    (hx : x ≠ []) (hxy : x ≠ y) (hv : ∀ p, v ≠ encrypt_key master p) :
    decrypt_key master (encrypt_key master x) = x ∧
    encrypt_key master x ≠ encrypt_key master y ∧
    decrypt_key master v = v := by
  refine ⟨?_, ?_, ?_⟩
  · simp [decrypt_key, fernetDecrypt, encrypt_key]
  · intro h
    simp only [encrypt_key, List.cons.injEq, true_and] at h
    exact hxy h
  · rcases v with _ | ⟨a, _ | ⟨m, rest⟩⟩
    · rfl
    · rfl
    · by_cases h1 : a = 128 ∧ m = master
      · exact absurd (by rw [h1.1, h1.2]; rfl) (hv rest)
      · simp [decrypt_key, fernetDecrypt, h1]

/-- C9 (witness): concrete secrets under master key 0. -/
theorem C9_encrypt_roundtrip_witness :
    ([1] : List Nat) ≠ [] ∧ ([1] : List Nat) ≠ [2] ∧
    (∀ p, ([5] : List Nat) ≠ encrypt_key 0 p) ∧
    (decrypt_key 0 (encrypt_key 0 [1]) = [1] ∧
     encrypt_key 0 [1] ≠ encrypt_key 0 [2] ∧
     decrypt_key 0 [5] = [5]) :=
  ⟨by decide, by decide, fun p => by simp [encrypt_key],
    C9_encrypt_roundtrip 0 [1] [2] [5] (by decide) (by decide)
      (fun p => by simp [encrypt_key])⟩

/-- C10: a credential whose status is suspended but whose expiry is null is
treated as available (subject only to the quota checks), `select()` can
return it with status still suspended, and the lazy reset leaves its status
suspended because the unsuspend UPDATE requires a non-NULL expiry. -/
theorem C10_null_expiry_available (now : Time) (k : APIKey)
    (hs : k.status = Status.suspended) (he : k.suspended_until = none)
    (hm : ¬(0 < k.monthly_limit ∧ k.monthly_limit ≤ k.usage_count))
    (hd : ¬(0 < k.daily_limit ∧ k.daily_limit ≤ k.daily_usage)) :
    is_available now k = true ∧
    (resetKey now k).status = Status.suspended ∧
    (resetKey now k).suspended_until = none ∧
    get_key now none [k] = some (resetKey now k) := by
  have hmh := monthlyReset_health now k
  have hdh := dailyReset_health now (monthlyReset now k)
  have h2s : (dailyReset now (monthlyReset now k)).status = Status.suspended :=
    hdh.1.trans (hmh.1.trans hs)
  have h2e : (dailyReset now (monthlyReset now k)).suspended_until = none :=
    hdh.2.1.trans (hmh.2.1.trans he)
  have hres : resetKey now k = dailyReset now (monthlyReset now k) := by
    unfold resetKey
    exact unsuspendExpired_of_none now _ h2e
  have hml2 : (resetKey now k).monthly_limit = k.monthly_limit := by
    rw [hres]
    exact (dailyReset_quota now _).1.trans (monthlyReset_quota now k).1
  have hdl2 : (resetKey now k).daily_limit = k.daily_limit := by
    rw [hres]
    exact (dailyReset_quota now _).2.1.trans (monthlyReset_quota now k).2.1
  have hu2 : (resetKey now k).usage_count = k.usage_count ∨
      (resetKey now k).usage_count = 0 := by
    rw [hres]
    have h1 := (dailyReset_quota now (monthlyReset now k)).2.2.1
    rcases (monthlyReset_quota now k).2.2.2 with h2 | h2
    · exact Or.inl (h1.trans h2)
    · exact Or.inr (h1.trans h2)
  have hdu2 : (resetKey now k).daily_usage = k.daily_usage ∨
      (resetKey now k).daily_usage = 0 := by
    rw [hres]
    have h1 := (monthlyReset_quota now k).2.2.1
    rcases (dailyReset_quota now (monthlyReset now k)).2.2.2 with h2 | h2
    · exact Or.inl (h2.trans h1)
    · exact Or.inr h2
  have hm2 : ¬(0 < (resetKey now k).monthly_limit ∧
      (resetKey now k).monthly_limit ≤ (resetKey now k).usage_count) := by
    rw [hml2]
    rcases hu2 with h | h
    · rw [h]
      exact hm
    · rw [h]
      rintro ⟨h01, h02⟩
      omega
  have hd2 : ¬(0 < (resetKey now k).daily_limit ∧
      (resetKey now k).daily_limit ≤ (resetKey now k).daily_usage) := by
    rw [hdl2]
    rcases hdu2 with h | h
    · rw [h]
      exact hd
    · rw [h]
      rintro ⟨h01, h02⟩
      omega
  have h2s' : (resetKey now k).status = Status.suspended := by
    rw [hres]
    exact h2s
  have h2e' : (resetKey now k).suspended_until = none := by
    rw [hres]
    exact h2e
  have havail : is_available now k = true := by
    simp [is_available, hs, stillSuspended, he, hm, hd]
  have havail2 : is_available now (resetKey now k) = true := by
    simp [is_available, h2s', stillSuspended, h2e', hm2, hd2]
  refine ⟨havail, h2s', h2e', ?_⟩
  have hlist : availList now [k] = [resetKey now k] := by
    unfold availList lazy_reset
    simp [havail2]
  unfold get_key
  rw [hlist]
  rfl

/-- C10 (witness): a quota-free credential with status suspended and a null
expiry is selected at minute 100 with its status still suspended. -/
theorem C10_null_expiry_available_witness :
    kSuspNoExp.status = Status.suspended ∧
    kSuspNoExp.suspended_until = none ∧
    ¬(0 < kSuspNoExp.monthly_limit ∧
        kSuspNoExp.monthly_limit ≤ kSuspNoExp.usage_count) ∧
    ¬(0 < kSuspNoExp.daily_limit ∧
        kSuspNoExp.daily_limit ≤ kSuspNoExp.daily_usage) ∧
    (is_available t0 kSuspNoExp = true ∧
     (resetKey t0 kSuspNoExp).status = Status.suspended ∧
     (resetKey t0 kSuspNoExp).suspended_until = none ∧
     get_key t0 none [kSuspNoExp] = some (resetKey t0 kSuspNoExp)) :=
  ⟨rfl, rfl, by decide, by decide,
    C10_null_expiry_available t0 kSuspNoExp rfl rfl (by decide) (by decide)⟩

/-- C6: for a persisted credential id, `reportFailure(id, 429)` always sets
status suspended, expiry = call time + the fixed 15-minute cooldown, and
increments the consecutive-failure counter, whatever the prior count. -/
theorem C6_429_always_suspends (st : State) (now : Time) (kid : Int) (k : APIKey)
    (hpos : 0 < kid) (hfind : findById kid st.keys = some k) :
    (report_failure kid 429 now st).map (fun s => findById kid s.keys) =
      some (some { k with
              status := Status.suspended
              suspended_until := some (now.abs + SUSPENSION_DURATION_MINUTES)
              consecutive_failures := k.consecutive_failures + 1
              last_used_at := some now }) := by
  have hneg : ¬ kid < 0 := by omega
  have hfk : fkOk kid st.keys = true := fkOk_of_find kid st.keys k hfind
  rw [report_failure_ok kid 429 now st hneg hfk]
  have hrow : findById kid (applyFailure kid 429 now st).keys =
      some { k with
              status := Status.suspended
              suspended_until := some (now.abs + SUSPENSION_DURATION_MINUTES)
              consecutive_failures := k.consecutive_failures + 1
              last_used_at := some now } := by
    unfold applyFailure
    rw [if_pos rfl]
    show findById kid (updateById kid (suspendUpdate now) st.keys) = _
    rw [findById_updateById kid (suspendUpdate now) (fun x => rfl) st.keys, hfind]
    rfl
  exact congrArg some hrow

/-- C6 (witness): key 1 with three prior failures, reported 429 at minute
100, is suspended until minute 115 with four failures. -/
theorem C6_429_always_suspends_witness :
    (0 : Int) < 1 ∧
    findById 1 (State.mk [kSusp] []).keys = some kSusp ∧
    (report_failure 1 429 t0 (State.mk [kSusp] [])).map (fun s => findById 1 s.keys) =
      some (some { kSusp with
              status := Status.suspended
              suspended_until := some (t0.abs + SUSPENSION_DURATION_MINUTES)
              consecutive_failures := kSusp.consecutive_failures + 1
              last_used_at := some t0 }) :=
  ⟨by decide, rfl, C6_429_always_suspends (State.mk [kSusp] []) t0 1 kSusp (by decide) rfl⟩

/-- C2 (amended): a failure report on a suspended credential never moves it
back to active - a 429 or any non-auth code leaves the status suspended
(the 429 also refreshes the expiry) - but an auth code (401/403) does
transition it to disabled; in every case the consecutive-failure counter
increments. -/
theorem C2_suspended_failure_report (st : State) (now : Time) (kid c : Int)
    (k : APIKey) (hge : 0 ≤ kid) (hfind : findById kid st.keys = some k)
    (hs : k.status = Status.suspended) :
    (report_failure kid c now st).map
        (fun s => (findById kid s.keys).map (fun x => x.status)) =
      some (some (if c = 401 ∨ c = 403 then Status.disabled
                  else Status.suspended)) ∧
    (report_failure kid c now st).map
        (fun s => (findById kid s.keys).map (fun x => x.consecutive_failures)) =
      some (some (k.consecutive_failures + 1)) := by
  have hneg : ¬ kid < 0 := by omega
  have hfk : fkOk kid st.keys = true := fkOk_of_find kid st.keys k hfind
  rw [report_failure_ok kid c now st hneg hfk]
  have hrows : (findById kid (applyFailure kid c now st).keys).map
        (fun x => x.status) =
      some (if c = 401 ∨ c = 403 then Status.disabled else Status.suspended) ∧
      (findById kid (applyFailure kid c now st).keys).map
        (fun x => x.consecutive_failures) = some (k.consecutive_failures + 1) := by
    unfold applyFailure
    by_cases h429 : c = 429
    · subst h429
      have hne : ¬((429 : Int) = 401 ∨ (429 : Int) = 403) := by norm_num
      rw [if_pos rfl, if_neg hne]
      have hfu := findById_updateById kid (suspendUpdate now) (fun x => rfl) st.keys
      constructor
      · show (findById kid (updateById kid (suspendUpdate now) st.keys)).map _ = _
        rw [hfu, hfind]
        rfl
      · show (findById kid (updateById kid (suspendUpdate now) st.keys)).map _ = _
        rw [hfu, hfind]
        rfl
    · rw [if_neg h429]
      by_cases hauth : c = 401 ∨ c = 403
      · rw [if_pos hauth, if_pos hauth]
        have hfu := findById_updateById kid (disableUpdate now) (fun x => rfl) st.keys
        constructor
        · show (findById kid (updateById kid (disableUpdate now) st.keys)).map _ = _
          rw [hfu, hfind]
          rfl
        · show (findById kid (updateById kid (disableUpdate now) st.keys)).map _ = _
          rw [hfu, hfind]
          rfl
      · rw [if_neg hauth, if_neg hauth]
        have hbump := findById_updateById kid (bumpFailures now) (fun x => rfl) st.keys
        have hfind2 : findById kid (updateById kid (bumpFailures now) st.keys) =
            some (bumpFailures now k) := by
          rw [hbump, hfind]
          rfl
        unfold breakerStep
        rw [hfind2]
        dsimp only
        by_cases hcf : MAX_CONSECUTIVE_FAILURES ≤ (bumpFailures now k).consecutive_failures
        · rw [if_pos hcf]
          have hbr := findById_updateById kid (breakerUpdate now) (fun x => rfl)
            (updateById kid (bumpFailures now) st.keys)
          constructor
          · show (findById kid (updateById kid (breakerUpdate now)
                (updateById kid (bumpFailures now) st.keys))).map _ = _
            rw [hbr, hfind2]
            rfl
          · show (findById kid (updateById kid (breakerUpdate now)
                (updateById kid (bumpFailures now) st.keys))).map _ = _
            rw [hbr, hfind2]
            rfl
        · rw [if_neg hcf]
          constructor
          · show (findById kid (updateById kid (bumpFailures now) st.keys)).map _ = _
            rw [hfind2]
            simp [bumpFailures, hs]
          · show (findById kid (updateById kid (bumpFailures now) st.keys)).map _ = _
            rw [hfind2]
            rfl
  exact ⟨congrArg some hrows.1, congrArg some hrows.2⟩

/-- C2 (witness): a suspended key reported with a 500 stays suspended with
the counter bumped to one. -/
theorem C2_suspended_failure_report_witness :
    (0 : Int) ≤ 1 ∧
    findById 1 (State.mk [kSusp200] []).keys = some kSusp200 ∧
    kSusp200.status = Status.suspended ∧
    ((report_failure 1 500 t0 (State.mk [kSusp200] [])).map
        (fun s => (findById 1 s.keys).map (fun x => x.status)) =
      some (some (if (500 : Int) = 401 ∨ (500 : Int) = 403 then Status.disabled
                  else Status.suspended)) ∧
     (report_failure 1 500 t0 (State.mk [kSusp200] [])).map
        (fun s => (findById 1 s.keys).map (fun x => x.consecutive_failures)) =
      some (some (kSusp200.consecutive_failures + 1))) :=
  ⟨by decide, rfl, rfl,
    C2_suspended_failure_report (State.mk [kSusp200] []) t0 1 500 kSusp200
      (by decide) rfl rfl⟩

/-- C2 (counterexample): the claim "a reportFailure call with any status
code causes no status transition on a suspended credential" is false: a 401
on a suspended credential transitions it to disabled. -/
theorem C2_counterexample :
    (report_failure 1 401 t0 (State.mk [kSusp200] [])).map
      (fun s => s.keys.map (fun k => k.status)) = some [Status.disabled] := by
  decide

/-- C7: evaluation at the failing input of the code bug. The code's own
docstring says a 401/403 disables a key permanently, and the spec says
disabled is terminal, yet `report_failure` applies the 429 suspension
UPDATE unconditionally: a disabled credential reported with 429 becomes
suspended, and the next lazy reset after the cooldown then makes it
active. -/
theorem C7_code_bug_eval :
    ((report_failure 1 429 t0 (State.mk [kDisabled] [])).map
        (fun s => s.keys.map (fun k => k.status)) = some [Status.suspended]) ∧
    ((report_failure 1 429 t0 (State.mk [kDisabled] [])).map
        (fun s => (lazy_reset t200 s.keys).map (fun k => k.status)) =
      some [Status.active]) := by
  decide

/-- C8 (amended): only strictly negative identities (the fallback
credential's id is -1) are the guarded, silently discarded reports;
identity 0 falls through to the store, where the usage-event INSERT
violates the enforced foreign key (no api_keys row has id 0), the call
raises IntegrityError and nothing is persisted - so it is a failure, not a
no-op. -/
theorem C8_guard_strictly_negative (st : State) (now : Time) (c kid : Int)
    (h : kid < 0 ∨ (kid = 0 ∧ ∀ k ∈ st.keys, 0 < k.id)) :
    report_success kid now st = (if kid < 0 then some st else none) ∧
    report_failure kid c now st = (if kid < 0 then some st else none) := by
  rcases h with hneg | ⟨rfl, hpos⟩
  · simp [report_success, report_failure, hneg]
  · have hneg0 : ¬((0 : Int) < 0) := by norm_num
    have habs : ∀ k ∈ st.keys, k.id ≠ 0 := by
      intro k hk
      have := hpos k hk
      omega
    have hfind0 : findById 0 st.keys = none := findById_of_absent 0 st.keys habs
    have hfk0 : ¬ fkOk 0 st.keys = true := by
      unfold fkOk
      rw [hfind0]
      simp
    simp [report_success, report_failure, hneg0, hfk0]

/-- C8 (witness): identity -1 is covered by the guard case and identity 0
against a store whose only credential has id 1 fails the foreign-key
check. -/
theorem C8_guard_strictly_negative_witness :
    ((0 : Int) < 0 ∨ ((0 : Int) = 0 ∧ ∀ k ∈ (State.mk [baseKey] []).keys, 0 < k.id)) ∧
    (report_success 0 t0 (State.mk [baseKey] []) =
        (if (0 : Int) < 0 then some (State.mk [baseKey] []) else none) ∧
     report_failure 0 500 t0 (State.mk [baseKey] []) =
        (if (0 : Int) < 0 then some (State.mk [baseKey] []) else none)) :=
  ⟨Or.inr ⟨rfl, by decide⟩,
    C8_guard_strictly_negative (State.mk [baseKey] []) t0 500 0
      (Or.inr ⟨rfl, by decide⟩)⟩

/-- C8 (counterexample): the claim says a report against identity 0 (an
id ≤ 0) is a discarded no-op; in the code the guard is `key_id < 0`, so
id 0 falls through, its usage-event INSERT violates the enforced foreign
key, and the call raises IntegrityError (modelled `none`) instead of
returning with the store unchanged. -/
theorem C8_counterexample :
    report_success 0 t0 (State.mk [baseKey] []) = none ∧
    report_success 0 t0 (State.mk [baseKey] []) ≠ some (State.mk [baseKey] []) := by
  decide

/-- C4 (amended): an unlimited credential u ranks strictly below a
quota-bound credential q exactly when u's usage count times q's quota is
less than 1,000,000 times q's usage count - not unconditionally - and among
unlimited credentials the order is by raw usage count. -/
theorem C4_unlimited_ratio (u q u2 : APIKey)
    (hu : u.monthly_limit = 0) (hq : q.monthly_limit ≠ 0)
    (hu2 : u2.monthly_limit = 0) :
    (usage_ratio u < usage_ratio q ↔
      u.usage_count * q.monthly_limit < 1000000 * q.usage_count) ∧
    (usage_ratio u < usage_ratio u2 ↔ u.usage_count < u2.usage_count) := by
  constructor
  · unfold usage_ratio
    rw [if_pos hu, if_neg hq]
    have hq' : (0 : ℚ) < (q.monthly_limit : ℚ) := by
      exact_mod_cast Nat.pos_of_ne_zero hq
    rw [div_lt_div_iff (by norm_num) hq']
    norm_cast
    rw [mul_comm q.usage_count 1000000]
  · unfold usage_ratio
    rw [if_pos hu, if_pos hu2]
    rw [div_lt_div_iff (by norm_num) (by norm_num)]
    norm_cast
    constructor <;> intro h <;> omega

/-- C4 (witness): an unlimited key with usage 0 versus a quota key with
limit 2 and usage 1, plus a second unlimited key. -/
theorem C4_unlimited_ratio_witness :
    baseKey.monthly_limit = 0 ∧
    kQuota.monthly_limit ≠ 0 ∧
    kUnlimHeavy.monthly_limit = 0 ∧
    ((usage_ratio baseKey < usage_ratio kQuota ↔
       baseKey.usage_count * kQuota.monthly_limit < 1000000 * kQuota.usage_count) ∧
     (usage_ratio baseKey < usage_ratio kUnlimHeavy ↔
       baseKey.usage_count < kUnlimHeavy.usage_count)) :=
  ⟨rfl, by decide, rfl,
    C4_unlimited_ratio baseKey kQuota kUnlimHeavy rfl (by decide) rfl⟩

/-- C4 (counterexample): both credentials are available, one unlimited and
one quota-bound with nonzero usage, yet the unlimited one (usage 1,000,000,
ratio 1) is NOT strictly less loaded than the quota-bound one (1 of 2,
ratio 1/2), refuting the unconditional claim. -/
theorem C4_counterexample :
    is_available t0 kUnlimHeavy = true ∧
    is_available t0 kQuota = true ∧
    kUnlimHeavy.monthly_limit = 0 ∧
    kQuota.monthly_limit ≠ 0 ∧
    kQuota.usage_count ≠ 0 ∧
    ¬(usage_ratio kUnlimHeavy < usage_ratio kQuota) := by
  refine ⟨by decide, by decide, rfl, by decide, by decide, ?_⟩
  simp only [usage_ratio, kUnlimHeavy, kQuota, baseKey]
  norm_num

/-- C3: with the catalog in strictly increasing id order, whenever at least
one credential is available, `select()` returns an available credential of
minimal usage ratio, and among equal minimal ratios the one with the lowest
id (the scan is in id order, so the result is deterministic). -/
theorem C3_select_min (now : Time) (env : Option String) (ks : List APIKey)
    (k : APIKey)
    (hsort : List.Pairwise (fun a b : APIKey => a.id < b.id) ks)
    (hne : availList now ks ≠ [])
    (hsel : get_key now env ks = some k) :
    k ∈ availList now ks ∧
    ∀ x ∈ availList now ks,
      usage_ratio k ≤ usage_ratio x ∧
      (usage_ratio x = usage_ratio k → k.id ≤ x.id) := by
  have hsorted : List.Pairwise (fun a b : APIKey => a.id < b.id)
      (availList now ks) := by
    unfold availList lazy_reset
    apply List.Pairwise.filter
    rw [List.pairwise_map]
    exact List.Pairwise.imp
      (fun h => by rw [resetKey_id, resetKey_id]; exact h) hsort
  rcases hl : availList now ks with _ | ⟨b, l⟩
  · exact absurd hl hne
  · unfold get_key at hsel
    rw [hl] at hsel
    unfold minByRatio at hsel
    dsimp only at hsel
    have hk : pymin usage_ratio b l = k := Option.some.inj hsel
    rw [hl] at hsorted
    subst hk
    constructor
    · rcases pymin_mem usage_ratio l b with h | h
      · rw [h]
        exact List.mem_cons_self b l
      · exact List.mem_cons_of_mem b h
    · intro x hx
      refine ⟨?_, ?_⟩
      · rcases List.mem_cons.mp hx with heq | hx2
        · rw [heq]
          exact (pymin_le usage_ratio l b).1
        · exact (pymin_le usage_ratio l b).2 x hx2
      · intro hfx
        exact pymin_tiebreak usage_ratio l b hsorted x hx hfx

/-- C3 (witness): a one-credential catalog is selected and trivially
minimal. -/
theorem C3_select_min_witness :
    List.Pairwise (fun a b : APIKey => a.id < b.id) [baseKey] ∧
    availList t0 [baseKey] ≠ [] ∧
    get_key t0 none [baseKey] = some baseKey ∧
    (baseKey ∈ availList t0 [baseKey] ∧
     ∀ x ∈ availList t0 [baseKey],
       usage_ratio baseKey ≤ usage_ratio x ∧
       (usage_ratio x = usage_ratio baseKey → baseKey.id ≤ x.id)) :=
  ⟨by simp, by decide, by rfl,
    C3_select_min t0 none [baseKey] baseKey (by simp) (by decide) (by rfl)⟩

/-- C5: whatever `select()` returns - a stored credential or the .env
fallback - is never disabled and never has a nonzero monthly quota that its
monthly usage has reached. -/
theorem C5_select_safe (now : Time) (env : Option String) (ks : List APIKey)
    (k : APIKey) (hsel : get_key now env ks = some k) :
    k.status ≠ Status.disabled ∧
    ¬(0 < k.monthly_limit ∧ k.monthly_limit ≤ k.usage_count) := by
  unfold get_key at hsel
  rcases hl : availList now ks with _ | ⟨b, l⟩
  · rw [hl] at hsel
    unfold minByRatio at hsel
    dsimp only at hsel
    rcases env with _ | s
    · exact Option.noConfusion hsel
    · have hk : get_env_key s now = k := Option.some.inj hsel
      rw [← hk]
      exact ⟨by simp [get_env_key], by simp [get_env_key]⟩
  · rw [hl] at hsel
    unfold minByRatio at hsel
    dsimp only at hsel
    have hk : pymin usage_ratio b l = k := Option.some.inj hsel
    have hmem : k ∈ availList now ks := by
      rw [hl]
      rcases pymin_mem usage_ratio l b with h | h
      · rw [← hk, h]
        exact List.mem_cons_self b l
      · rw [← hk]
        exact List.mem_cons_of_mem b h
    have hav : is_available now k = true := by
      unfold availList at hmem
      exact (List.mem_filter.mp hmem).2
    exact is_available_spec now k hav

/-- C5 (witness): selection from a one-credential store returns it, and it
is neither disabled nor over quota. -/
theorem C5_select_safe_witness :
    get_key t0 (some "envsecret") [kSusp200, baseKey] = some baseKey ∧
    (baseKey.status ≠ Status.disabled ∧
     ¬(0 < baseKey.monthly_limit ∧ baseKey.monthly_limit ≤ baseKey.usage_count)) :=
  ⟨by decide,
    C5_select_safe t0 (some "envsecret") [kSusp200, baseKey] baseKey (by decide)⟩
